import Mathlib

/-!
Shallow embedding of the `retry` package (file `retrier.go`).

Modelling conventions:
* `time.Duration` (an `int64` count of nanoseconds) is modelled as `Int`;
  the int64 range is not modelled (no claim here exercises overflow).
* `float64` values (`Rate`, `Jitter`, the random sample) are modelled as
  exact rationals `ℚ`; Go's conversion `time.Duration(f)` truncates the
  float toward zero, modelled by `goTrunc`.
* `rand.NormFloat64()` is a draw from a process-wide generator; it is
  modelled as an explicit oracle argument `x : ℚ` threaded into `Wait`.
* The cancellation context is modelled by two oracle booleans:
  `cE` — the token is already triggered at entry to `Wait`
  (the non-blocking `select` on `ctx.Done()` takes the done branch), and
  `cS` — the token triggers during the sleep and wins the race against
  the timer (the final `select` takes the `ctx.Done()` branch).
* Wall-clock time is not modelled; `time.After` merely selects a branch.
-/

/-- Mirror of `struct Retrier` (retrier.go lines 12-36).
`Attempts` is the number of remaining attempts, unlimited when 0;
`Delay` is the current delay; `Floor`/`Ceil` bound the delay;
`Rate` is the growth multiplier; `Jitter` the jitter fraction. -/
structure Retrier where
  Attempts : Int
  Delay : Int
  Floor : Int
  Ceil : Int
  Rate : ℚ
  Jitter : ℚ
  deriving Repr, DecidableEq

/-- Go's float-to-integer conversion truncates toward zero. -/
def goTrunc (q : ℚ) : Int := if 0 ≤ q then ⌊q⌋ else ⌈q⌉

/-- The exact rational value of the float64 constant `math.Phi`. -/
def mathPhi : ℚ := 910872158600853 / 562949953421312

/-- Mirror of `New` (retrier.go lines 39-49): zero initial delay,
unlimited attempts (sentinel 0), rate `math.Phi`, jitter 0 (Go zero value). -/
def New (floor ceil : Int) : Retrier :=
  { Attempts := 0, Delay := 0, Floor := floor, Ceil := ceil,
    Rate := mathPhi, Jitter := 0 }

/-- Mirror of `applyJitter` (retrier.go lines 51-59); `x` is the oracle
value returned by `rand.NormFloat64()`. -/
def applyJitter (d : Int) (jitter : ℚ) (x : ℚ) : Int :=
  if jitter = 0 then d
  else goTrunc (x * (jitter * (d : ℚ)) + (d : ℚ))

/-- The delay pipeline of `Wait` before the sleep (retrier.go lines 70-78):
grow by `Rate` while below `Ceil`, apply jitter, clamp to `Ceil`. -/
def growClamp (r : Retrier) (x : ℚ) : Int :=
  let d1 := if r.Delay < r.Ceil then goTrunc ((r.Delay : ℚ) * r.Rate) else r.Delay
  let d2 := applyJitter d1 r.Jitter x
  if d2 > r.Ceil then r.Ceil else d2

/-- The final `select` of `Wait` (retrier.go lines 87-95): if the timer
elapses first (`cS = false`), raise the delay to `Floor` and report
`true`; if cancellation wins (`cS = true`), report `false` unchanged. -/
def sleepStep (r : Retrier) (cS : Bool) : Bool × Retrier :=
  if cS then (false, r)
  else (true, { r with Delay := if r.Delay < r.Floor then r.Floor else r.Delay })

/-- Mirror of `Wait` (retrier.go lines 63-96).
`cE`, `cS`, `x` are the oracles described in the header. -/
def Retrier.Wait (r : Retrier) (cE cS : Bool) (x : ℚ) : Bool × Retrier :=
  if cE then (false, r)
  else
    let r1 : Retrier := { r with Delay := growClamp r x }
    if 0 < r1.Attempts then
      if r1.Attempts = 1 then (false, r1)
      else sleepStep { r1 with Attempts := r1.Attempts - 1 } cS
    else sleepStep r1 cS

/-- Mirror of `Reset` (retrier.go lines 99-101). -/
def Retrier.Reset (r : Retrier) : Retrier := { r with Delay := 0 }

/-- One uncancelled `Wait` call with jitter sample 0 (the sample is unused
whenever `Jitter = 0`); used to iterate deterministic call sequences. -/
def stepWait (r : Retrier) : Retrier := (r.Wait false false 0).snd

/-- An observable operation on a `Retrier`: a `Wait` call with its oracles,
or a `Reset`. -/
inductive Op where
  | wait (cE cS : Bool) (x : ℚ)
  | reset

/-- Apply one operation to the state. -/
def applyOp (r : Retrier) : Op → Retrier
  | Op.wait cE cS x => (r.Wait cE cS x).snd
  | Op.reset => r.Reset

/-- Apply a sequence of operations in order. -/
def applyOps (r : Retrier) (l : List Op) : Retrier := l.foldl applyOp r

/-- The state of the retrier at the moment the sleeping `select` is
entered: delay grown/jittered/clamped and the budget decremented
(retrier.go lines 70-85), with the post-sleep floor raise not yet applied. -/
def preSleepState (r : Retrier) (x : ℚ) : Retrier :=
  let r1 : Retrier := { r with Delay := growClamp r x }
  if 0 < r1.Attempts then { r1 with Attempts := r1.Attempts - 1 } else r1

/-! Basic facts about `goTrunc`. -/

theorem goTrunc_intCast (n : Int) : goTrunc (n : ℚ) = n := by
  unfold goTrunc
  split <;> simp

theorem goTrunc_eq_floor {q : ℚ} (h : 0 ≤ q) : goTrunc q = ⌊q⌋ := by
  simp [goTrunc, h]

theorem le_goTrunc {d : Int} {q : ℚ} (hd : 0 ≤ d) (h : (d : ℚ) ≤ q) :
    d ≤ goTrunc q := by
  have hq : (0 : ℚ) ≤ q := le_trans (by exact_mod_cast hd) h
  rw [goTrunc_eq_floor hq]
  exact Int.le_floor.2 h

/-! Characterisation lemmas for `Wait`: one per return path of the Go
function, plus frame lemmas for the fields it never writes. -/

theorem Wait_entry_cancel (r : Retrier) (cS : Bool) (x : ℚ) :
    r.Wait true cS x = (false, r) := rfl

theorem Wait_budget_fires {r : Retrier} (h : r.Attempts = 1) (cS : Bool) (x : ℚ) :
    r.Wait false cS x = (false, { r with Delay := growClamp r x }) := by
  simp [Retrier.Wait, h]

theorem Wait_sleep_cancel {r : Retrier} (h : r.Attempts ≠ 1) (x : ℚ) :
    r.Wait false true x = (false, preSleepState r x) := by
  simp only [Retrier.Wait, preSleepState, sleepStep]
  split_ifs <;> simp_all

theorem Wait_proceeds {r : Retrier} (h : r.Attempts ≠ 1) (x : ℚ) :
    r.Wait false false x =
      (true, { preSleepState r x with
               Delay := if growClamp r x < r.Floor then r.Floor
                        else growClamp r x }) := by
  simp only [Retrier.Wait, preSleepState, sleepStep]
  split_ifs <;> simp_all

theorem Wait_Attempts (r : Retrier) (cE cS : Bool) (x : ℚ) :
    (r.Wait cE cS x).snd.Attempts =
      if cE = false ∧ 1 < r.Attempts then r.Attempts - 1 else r.Attempts := by
  simp only [Retrier.Wait, sleepStep]
  split_ifs <;> simp_all <;> omega

theorem Wait_snd_Floor (r : Retrier) (cE cS : Bool) (x : ℚ) :
    (r.Wait cE cS x).snd.Floor = r.Floor := by
  simp only [Retrier.Wait, sleepStep]
  split_ifs <;> simp_all

theorem Wait_snd_Ceil (r : Retrier) (cE cS : Bool) (x : ℚ) :
    (r.Wait cE cS x).snd.Ceil = r.Ceil := by
  simp only [Retrier.Wait, sleepStep]
  split_ifs <;> simp_all

theorem Wait_snd_Rate (r : Retrier) (cE cS : Bool) (x : ℚ) :
    (r.Wait cE cS x).snd.Rate = r.Rate := by
  simp only [Retrier.Wait, sleepStep]
  split_ifs <;> simp_all

theorem Wait_snd_Jitter (r : Retrier) (cE cS : Bool) (x : ℚ) :
    (r.Wait cE cS x).snd.Jitter = r.Jitter := by
  simp only [Retrier.Wait, sleepStep]
  split_ifs <;> simp_all

/-! Arithmetic facts about the delay pipeline. -/

theorem growClamp_le_Ceil (r : Retrier) (x : ℚ) : growClamp r x ≤ r.Ceil := by
  simp only [growClamp]
  split <;> omega

theorem le_growClamp {r : Retrier} (hJ : r.Jitter = 0) (hR : 1 ≤ r.Rate)
    (hD : 0 ≤ r.Delay) (hDC : r.Delay ≤ r.Ceil) (x : ℚ) :
    r.Delay ≤ growClamp r x := by
  simp only [growClamp, applyJitter, hJ, if_pos rfl]
  have h1 : r.Delay ≤ if r.Delay < r.Ceil then goTrunc ((r.Delay : ℚ) * r.Rate)
      else r.Delay := by
    split_ifs
    · exact le_goTrunc hD (le_mul_of_one_le_right (by exact_mod_cast hD) hR)
    · exact le_refl _
  split_ifs <;> omega

theorem growClamp_at_Ceil {r : Retrier} (hJ : r.Jitter = 0) (hD : r.Delay = r.Ceil)
    (x : ℚ) : growClamp r x = r.Ceil := by
  simp [growClamp, applyJitter, hJ, hD]

/-- The delay stored by an uncancelled, budget-passing `Wait` call. -/
theorem stepWait_Delay {r : Retrier} (h : r.Attempts ≠ 1) :
    (stepWait r).Delay =
      if growClamp r 0 < r.Floor then r.Floor else growClamp r 0 := by
  simp [stepWait, Wait_proceeds h]

theorem stepWait_Attempts (r : Retrier) :
    (stepWait r).Attempts =
      if 1 < r.Attempts then r.Attempts - 1 else r.Attempts := by
  simp [stepWait, Wait_Attempts]

/-- Invariant carried through a run of uncancelled calls with jitter 0 and
an unlimited attempt budget: the configuration fields never change, the
budget stays unlimited, and the delay stays within `[0, Ceil]`. -/
theorem iterWait_invariant (r : Retrier) (hJ : r.Jitter = 0) (hR : 1 ≤ r.Rate)
    (hFC : r.Floor ≤ r.Ceil) (hA : r.Attempts ≤ 0)
    (hD : 0 ≤ r.Delay) (hDC : r.Delay ≤ r.Ceil) (n : ℕ) :
    (stepWait^[n] r).Jitter = 0 ∧ (stepWait^[n] r).Rate = r.Rate ∧
    (stepWait^[n] r).Floor = r.Floor ∧ (stepWait^[n] r).Ceil = r.Ceil ∧
    (stepWait^[n] r).Attempts ≤ 0 ∧
    0 ≤ (stepWait^[n] r).Delay ∧ (stepWait^[n] r).Delay ≤ r.Ceil := by
  induction n with
  | zero => simp_all
  | succ n ih =>
    obtain ⟨iJ, iR, iF, iC, iA, iD, iDC⟩ := ih
    rw [Function.iterate_succ_apply']
    set s := stepWait^[n] r with hs
    have hA1 : s.Attempts ≠ 1 := by omega
    have hg : s.Delay ≤ growClamp s 0 :=
      le_growClamp iJ (iR ▸ hR) iD (iC ▸ iDC) 0
    have hgc : growClamp s 0 ≤ s.Ceil := growClamp_le_Ceil s 0
    refine ⟨?_, ?_, ?_, ?_, ?_, ?_, ?_⟩
    · rw [stepWait, Wait_snd_Jitter]; exact iJ
    · rw [stepWait, Wait_snd_Rate]; exact iR
    · rw [stepWait, Wait_snd_Floor]; exact iF
    · rw [stepWait, Wait_snd_Ceil]; exact iC
    · rw [stepWait_Attempts]; split_ifs <;> omega
    · rw [stepWait_Delay hA1]; split_ifs <;> omega
    · rw [stepWait_Delay hA1]; rw [iF, iC] at *; split_ifs <;> omega

/-- After `i` uncancelled calls against a finite budget of at least `i + 1`
remaining attempts, exactly `i` attempts have been consumed. -/
theorem iterWait_Attempts_of (r : Retrier) (i : ℕ) (h : (i : Int) + 1 ≤ r.Attempts) :
    (stepWait^[i] r).Attempts = r.Attempts - i := by
  induction i with
  | zero => simp
  | succ i ih =>
    have hi : (i : Int) + 1 ≤ r.Attempts := by push_cast at h ⊢; omega
    rw [Function.iterate_succ_apply', stepWait_Attempts, ih hi]
    push_cast at h ⊢
    split_ifs <;> omega

/-- Claim C1: for every finite attempt budget `k ≥ 1` set at construction,
with jitter 0 and a cancellation token that never triggers, the first
`k - 1` calls to `Wait` return `true` and the `k`-th call returns `false`. -/
theorem C1_finite_budget_counts (k i : ℕ) (fl ce : Int) (rate : ℚ) (hk : 1 ≤ k) :
    (i < k - 1 →
      ((stepWait^[i] (⟨(k : Int), 0, fl, ce, rate, 0⟩ : Retrier)).Wait
        false false 0).fst = true) ∧
    ((stepWait^[k - 1] (⟨(k : Int), 0, fl, ce, rate, 0⟩ : Retrier)).Wait
      false false 0).fst = false := by
  constructor
  · intro hik
    have hAi := iterWait_Attempts_of (⟨(k : Int), 0, fl, ce, rate, 0⟩ : Retrier) i
      (by simp; omega)
    have hA1 : (stepWait^[i] (⟨(k : Int), 0, fl, ce, rate, 0⟩ : Retrier)).Attempts ≠ 1 := by
      rw [hAi]; simp; omega
    rw [Wait_proceeds hA1]
  · have hAi := iterWait_Attempts_of (⟨(k : Int), 0, fl, ce, rate, 0⟩ : Retrier) (k - 1)
      (by simp; push_cast [Nat.cast_sub hk]; omega)
    have hA1 : (stepWait^[k - 1] (⟨(k : Int), 0, fl, ce, rate, 0⟩ : Retrier)).Attempts = 1 := by
      rw [hAi]; simp; push_cast [Nat.cast_sub hk]; omega
    rw [Wait_budget_fires hA1]

/-- Claim C1, witness: with `k = 5` the third call returns `true` and the
fifth call returns `false`. -/
theorem C1_finite_budget_counts_witness :
    (2 < 5 - 1 →
      ((stepWait^[2] (⟨((5 : ℕ) : Int), 0, 0, 100, 2, 0⟩ : Retrier)).Wait
        false false 0).fst = true) ∧
    ((stepWait^[5 - 1] (⟨((5 : ℕ) : Int), 0, 0, 100, 2, 0⟩ : Retrier)).Wait
      false false 0).fst = false :=
  C1_finite_budget_counts 5 2 0 100 2 (by norm_num)

/-- Claim C2, counterexample: in the spec's end-to-end scenario (floor 0,
ceiling 100 ms, rate 2, jitter 0, unlimited attempts, no cancellation) the
delay after the second call is 0, not strictly positive: growth multiplies
the zero delay and the floor raise is to 0, so the delay never grows. -/
theorem C2_second_delay_not_positive :
    (stepWait (stepWait (⟨0, 0, 0, 100000000, 2, 0⟩ : Retrier))).Delay = 0 ∧
    ¬ 0 < (stepWait (stepWait (⟨0, 0, 0, 100000000, 2, 0⟩ : Retrier))).Delay := by
  norm_num [stepWait, Retrier.Wait, growClamp, applyJitter, goTrunc, sleepStep]

/-- Claim C2 as amended: with floor 0, ceiling 100 ms, rate 2, jitter 0,
unlimited attempts and no cancellation, every call (the five of the
scenario included) returns `true` with stored delay exactly 0 — trivially
within the 100 ms cap, the first call unthrottled — and the delay never
becomes strictly positive, because growth multiplies a zero delay. -/
theorem C2_zero_floor_all_delays_zero : ∀ n : ℕ,
    ((stepWait^[n] (⟨0, 0, 0, 100000000, 2, 0⟩ : Retrier)).Wait false false 0).fst = true ∧
    (stepWait^[n] (⟨0, 0, 0, 100000000, 2, 0⟩ : Retrier)).Delay = 0 := by
  have hfix : (⟨0, 0, 0, 100000000, 2, 0⟩ : Retrier).Wait false false 0 =
      (true, (⟨0, 0, 0, 100000000, 2, 0⟩ : Retrier)) := by
    norm_num [Retrier.Wait, growClamp, applyJitter, goTrunc, sleepStep]
  intro n
  have hit : stepWait^[n] (⟨0, 0, 0, 100000000, 2, 0⟩ : Retrier) =
      (⟨0, 0, 0, 100000000, 2, 0⟩ : Retrier) :=
    Function.iterate_fixed (by simp [stepWait, hfix]) n
  rw [hit, hfix]
  simp

/-- Claim C3: for a retrier with `Floor ≤ Ceil`, after any `Wait` call that
returns `true` the stored delay lies in `[Floor, Ceil]`, whatever the
jitter configuration and the jitter sample were. -/
theorem C3_delay_within_bounds_after_true (r : Retrier) (cE cS : Bool) (x : ℚ)
    (hFC : r.Floor ≤ r.Ceil) (ht : (r.Wait cE cS x).fst = true) :
    r.Floor ≤ (r.Wait cE cS x).snd.Delay ∧ (r.Wait cE cS x).snd.Delay ≤ r.Ceil := by
  cases cE
  · by_cases hA : r.Attempts = 1
    · rw [Wait_budget_fires hA] at ht; simp at ht
    · cases cS
      · rw [Wait_proceeds hA]
        have := growClamp_le_Ceil r x
        constructor <;> simp <;> split_ifs <;> omega
      · rw [Wait_sleep_cancel hA] at ht; simp at ht
  · rw [Wait_entry_cancel] at ht; simp at ht

/-- Claim C3, witness: floor 5, ceiling 10, stored delay 7; the call
returns `true` and the new delay (10, the clamped 7·2) is within bounds. -/
theorem C3_delay_within_bounds_after_true_witness :
    (⟨0, 7, 5, 10, 2, 0⟩ : Retrier).Floor ≤
      ((⟨0, 7, 5, 10, 2, 0⟩ : Retrier).Wait false false 0).snd.Delay ∧
    ((⟨0, 7, 5, 10, 2, 0⟩ : Retrier).Wait false false 0).snd.Delay ≤
      (⟨0, 7, 5, 10, 2, 0⟩ : Retrier).Ceil :=
  C3_delay_within_bounds_after_true _ false false 0 (by decide)
    (by norm_num [Retrier.Wait, growClamp, applyJitter, goTrunc, sleepStep])

/-- Claim C4: with jitter 0, rate above 1, `Floor ≤ Ceil`, an unlimited
budget and no cancellation, starting from any in-range delay, every call
returns `true`, the stored delays never decrease, and once the delay
equals the ceiling it stays there. -/
theorem C4_delays_monotone_to_ceiling (r : Retrier) (n : ℕ) (hJ : r.Jitter = 0)
    (hR : 1 < r.Rate) (hFC : r.Floor ≤ r.Ceil) (hA : r.Attempts ≤ 0)
    (hD : 0 ≤ r.Delay) (hDC : r.Delay ≤ r.Ceil) :
    ((stepWait^[n] r).Wait false false 0).fst = true ∧
    (stepWait^[n] r).Delay ≤ (stepWait^[n + 1] r).Delay ∧
    ((stepWait^[n] r).Delay = r.Ceil → (stepWait^[n + 1] r).Delay = r.Ceil) := by
  obtain ⟨iJ, iR, iF, iC, iA, iD, iDC⟩ :=
    iterWait_invariant r hJ (le_of_lt hR) hFC hA hD hDC n
  set s := stepWait^[n] r with hs
  have hA1 : s.Attempts ≠ 1 := by omega
  have hg : s.Delay ≤ growClamp s 0 :=
    le_growClamp iJ (iR ▸ le_of_lt hR) iD (iC ▸ iDC) 0
  have hgc : growClamp s 0 ≤ s.Ceil := growClamp_le_Ceil s 0
  refine ⟨?_, ?_, ?_⟩
  · rw [Wait_proceeds hA1]
  · rw [Function.iterate_succ_apply', ← hs, stepWait_Delay hA1]
    split_ifs <;> omega
  · intro hEq
    have hsc : s.Delay = s.Ceil := by omega
    have hgC : growClamp s 0 = s.Ceil := growClamp_at_Ceil iJ hsc 0
    rw [Function.iterate_succ_apply', ← hs, stepWait_Delay hA1]
    rw [iF, iC] at *
    split_ifs <;> omega

/-- Claim C4, witness: floor 2, ceiling 10, rate 2, at step 1. -/
theorem C4_delays_monotone_to_ceiling_witness :
    ((stepWait^[1] (⟨0, 0, 2, 10, 2, 0⟩ : Retrier)).Wait false false 0).fst = true ∧
    (stepWait^[1] (⟨0, 0, 2, 10, 2, 0⟩ : Retrier)).Delay ≤
      (stepWait^[1 + 1] (⟨0, 0, 2, 10, 2, 0⟩ : Retrier)).Delay ∧
    ((stepWait^[1] (⟨0, 0, 2, 10, 2, 0⟩ : Retrier)).Delay =
        (⟨0, 0, 2, 10, 2, 0⟩ : Retrier).Ceil →
      (stepWait^[1 + 1] (⟨0, 0, 2, 10, 2, 0⟩ : Retrier)).Delay =
        (⟨0, 0, 2, 10, 2, 0⟩ : Retrier).Ceil) :=
  C4_delays_monotone_to_ceiling _ 1 rfl (by decide) (by decide) (by decide)
    (by decide) (by decide)

/-- Claim C5: once the finite budget check has fired (one attempt
remaining), every later `Wait` — after any sequence of further `Wait` and
`Reset` calls, with any cancellation and jitter oracles — returns `false`,
and the remaining-attempt count is never decremented again. -/
theorem C5_exhausted_budget_is_permanent (r : Retrier) (h : r.Attempts = 1)
    (ops : List Op) (cE cS : Bool) (x : ℚ) :
    (applyOps r ops).Attempts = 1 ∧ ((applyOps r ops).Wait cE cS x).fst = false := by
  have key : ∀ (l : List Op) (s : Retrier), s.Attempts = 1 →
      (applyOps s l).Attempts = 1 := by
    intro l
    induction l with
    | nil => intro s hs; simpa [applyOps] using hs
    | cons op t ih =>
      intro s hs
      have hop : (applyOp s op).Attempts = 1 := by
        cases op with
        | wait cE cS x => simp [applyOp, Wait_Attempts, hs]
        | reset => simp [applyOp, Retrier.Reset, hs]
      simpa [applyOps] using ih (applyOp s op) hop
  have hA := key ops r h
  refine ⟨hA, ?_⟩
  cases cE
  · rw [Wait_budget_fires hA]
  · rw [Wait_entry_cancel]

/-- Claim C5, witness: an exhausted retrier, after a `Reset` and a further
`Wait`, still holds one attempt and still answers `false`. -/
theorem C5_exhausted_budget_is_permanent_witness :
    (applyOps (⟨1, 3, 0, 10, 2, 0⟩ : Retrier) [Op.reset, Op.wait false false 0]).Attempts = 1 ∧
    ((applyOps (⟨1, 3, 0, 10, 2, 0⟩ : Retrier) [Op.reset, Op.wait false false 0]).Wait
      false false 0).fst = false :=
  C5_exhausted_budget_is_permanent _ rfl _ false false 0

/-- Claim C6: a token already triggered at entry makes `Wait` return
`false` with the state untouched; a token that wins the race during the
sleep makes `Wait` return `false` with exactly the state observed when the
sleep began (delay grown, jittered and clamped, budget decremented, no
floor raise) — nothing is mutated after the point of observation. -/
theorem C6_cancellation_stops_mutation (r : Retrier) (cS : Bool) (x : ℚ) :
    r.Wait true cS x = (false, r) ∧
    (r.Attempts ≠ 1 → r.Wait false true x = (false, preSleepState r x)) :=
  ⟨Wait_entry_cancel r cS x, fun h => Wait_sleep_cancel h x⟩

/-- Claim C6, witness: both cancellation observation points at a concrete
retrier. -/
theorem C6_cancellation_stops_mutation_witness :
    (⟨0, 3, 0, 10, 2, 0⟩ : Retrier).Wait true false 0 =
      (false, (⟨0, 3, 0, 10, 2, 0⟩ : Retrier)) ∧
    (⟨0, 3, 0, 10, 2, 0⟩ : Retrier).Wait false true 0 =
      (false, preSleepState (⟨0, 3, 0, 10, 2, 0⟩ : Retrier) 0) :=
  ⟨(C6_cancellation_stops_mutation _ false 0).1,
   (C6_cancellation_stops_mutation _ false 0).2 (by decide)⟩

/-- Claim C7: `Reset` zeroes the stored delay and leaves every other field
— the attempt budget included — unchanged. -/
theorem C7_reset_only_zeroes_delay (r : Retrier) :
    (r.Reset).Delay = 0 ∧ (r.Reset).Attempts = r.Attempts ∧
    (r.Reset).Floor = r.Floor ∧ (r.Reset).Ceil = r.Ceil ∧
    (r.Reset).Rate = r.Rate ∧ (r.Reset).Jitter = r.Jitter := by
  simp [Retrier.Reset]

/-- Claim C8: with jitter 0 and an uncancelled token, `Reset` followed by
`Wait` stores the same delay as the first `Wait` on a fresh instance with
the same floor, ceiling and rate (attempt-budget effects excluded: the
reset retrier is not on its last attempt). -/
theorem C8_reset_restarts_backoff_curve (r : Retrier) (x y : ℚ)
    (hJ : r.Jitter = 0) (hA : r.Attempts ≠ 1) :
    ((r.Reset).Wait false false x).snd.Delay =
      ((⟨0, 0, r.Floor, r.Ceil, r.Rate, 0⟩ : Retrier).Wait false false y).snd.Delay := by
  have hA1 : (r.Reset).Attempts ≠ 1 := by simpa [Retrier.Reset] using hA
  have hA2 : (⟨0, 0, r.Floor, r.Ceil, r.Rate, 0⟩ : Retrier).Attempts ≠ 1 := by norm_num
  rw [Wait_proceeds hA1, Wait_proceeds hA2]
  simp [growClamp, applyJitter, goTrunc, Retrier.Reset, hJ]

/-- Claim C8, witness: a used retrier (delay 42) reset and waited equals a
fresh instance's first wait. -/
theorem C8_reset_restarts_backoff_curve_witness :
    (((⟨0, 42, 5, 100, 2, 0⟩ : Retrier).Reset).Wait false false 0).snd.Delay =
      ((⟨0, 0, 5, 100, 2, 0⟩ : Retrier).Wait false false 0).snd.Delay :=
  C8_reset_restarts_backoff_curve _ 0 0 rfl (by decide)

/-- Claim C9: with the `Attempts = 0` unlimited sentinel, a finite budget
decrements only while above 1, so an initially positive budget stays at
least 1 across every sequence of `Wait` and `Reset` calls and is never
reinterpreted as the unlimited sentinel. -/
theorem C9_positive_budget_never_reaches_sentinel (r : Retrier)
    (h : 0 < r.Attempts) (ops : List Op) :
    1 ≤ (applyOps r ops).Attempts := by
  induction ops generalizing r with
  | nil => simpa [applyOps] using h
  | cons op t ih =>
    have h1 : 0 < (applyOp r op).Attempts := by
      cases op with
      | wait cE cS x => simp only [applyOp, Wait_Attempts]; split_ifs <;> omega
      | reset => simpa [applyOp, Retrier.Reset] using h
    simpa [applyOps] using ih (applyOp r op) h1

/-- Claim C9, witness: a budget of 3 stays at least 1 after three waits
and a reset. -/
theorem C9_positive_budget_never_reaches_sentinel_witness :
    1 ≤ (applyOps (⟨3, 0, 0, 10, 2, 0⟩ : Retrier)
      [Op.wait false false 0, Op.wait false false 0,
       Op.wait false false 0, Op.reset]).Attempts :=
  C9_positive_budget_never_reaches_sentinel _ (by decide) _

/-- Claim C10: on every `false`-returning path the floor raise is skipped
— the stored delay is either untouched (token already triggered at entry)
or exactly the grown/jittered/clamped value with no floor applied — and
with jitter above 0 the stored delay after a `false` return can be below
the floor and even negative, as at the concrete state in the statement. -/
theorem C10_no_floor_raise_on_false_paths (r : Retrier) (cE cS : Bool) (x : ℚ)
    (hf : (r.Wait cE cS x).fst = false) :
    ((r.Wait cE cS x).snd.Delay = r.Delay ∨
     (r.Wait cE cS x).snd.Delay = growClamp r x) ∧
    (((⟨1, 10, 5, 100, 2, 1⟩ : Retrier).Wait false false (-3)).fst = false ∧
     ((⟨1, 10, 5, 100, 2, 1⟩ : Retrier).Wait false false (-3)).snd.Delay <
       (⟨1, 10, 5, 100, 2, 1⟩ : Retrier).Floor ∧
     ((⟨1, 10, 5, 100, 2, 1⟩ : Retrier).Wait false false (-3)).snd.Delay < 0) := by
  constructor
  · cases cE
    · by_cases hA : r.Attempts = 1
      · rw [Wait_budget_fires hA]; right; rfl
      · cases cS
        · rw [Wait_proceeds hA] at hf; simp at hf
        · rw [Wait_sleep_cancel hA]; right
          simp only [preSleepState]
          split_ifs <;> rfl
    · rw [Wait_entry_cancel]; left; rfl
  · refine ⟨?_, ?_, ?_⟩ <;>
      norm_num [Retrier.Wait, growClamp, applyJitter, goTrunc, sleepStep, Int.ceil_neg]

/-- Claim C10, witness: a token triggered at entry returns `false` leaving
the delay untouched (so in particular no floor raise happened). -/
theorem C10_no_floor_raise_on_false_paths_witness :
    ((⟨0, 9, 0, 10, 2, 0⟩ : Retrier).Wait true false 0).snd.Delay =
      (⟨0, 9, 0, 10, 2, 0⟩ : Retrier).Delay ∨
    ((⟨0, 9, 0, 10, 2, 0⟩ : Retrier).Wait true false 0).snd.Delay =
      growClamp (⟨0, 9, 0, 10, 2, 0⟩ : Retrier) 0 :=
  (C10_no_floor_raise_on_false_paths _ true false 0 rfl).1
